import Mathlib

/-!
Verification of the Basketball Tagger core (`BasketballTaggerVersion3.py`):
play registry, event log, and metrics engine, embedded shallowly.
Numeric fields (`PPP`, `Frequency`, `Success Rate`) are modelled over `ℚ`.
-/

namespace BasketballTagger

/-- An event record, mirroring the dict appended by `add_log`
(lines 29-38 of the source). -/
structure Event where
  timestamp : String
  opponent : String
  game_date : String
  quarter : String
  play : String
  result : String
  points : Int
deriving DecidableEq, Repr

/-- `points_from_result` (line 26-27): dict lookup with default 0,
written as the equivalent chain of equality tests. -/
def points_from_result (result : String) : Int :=
  if result = "Made 2" then 2
  else if result = "Made 3" then 3
  else if result = "Missed 2" then 0
  else if result = "Missed 3" then 0
  else if result = "Foul" then 0
  else 0

/-- The game-context fields read from session state by `add_log`. -/
structure Context where
  opponent : String
  game_date : String
  quarter : String
deriving DecidableEq, Repr

/-- `add_log` (lines 29-38): append one event built from the context, the
wall-clock timestamp (passed explicitly), the play and the result. -/
def add_log (log : List Event) (ctx : Context) (timestamp play result : String) :
    List Event :=
  log ++ [{ timestamp := timestamp
            opponent := ctx.opponent
            game_date := ctx.game_date
            quarter := ctx.quarter
            play := play
            result := result
            points := points_from_result result }]

/-- One row of the metrics table produced by `compute_metrics`. -/
structure MetricsRow where
  Play : String
  Attempts : Nat
  Points : Int
  PPP : ℚ
  Frequency : ℚ
  SuccessRate : ℚ
deriving DecidableEq, Repr

/-- The fixed column set of the metrics table (line 42 of the source). -/
def metrics_columns : List String :=
  ["Play", "Attempts", "Points", "PPP", "Frequency", "Success Rate"]

/-- Group size for a play: `log_df.groupby("play").size()` (line 45).
Every tag counts, including fouls. -/
def attemptsOf (log : List Event) (p : String) : Nat :=
  (log.filter (fun e => e.play == p)).length

/-- Points for a play: `log_df.groupby("play")["points"].sum()` (line 48). -/
def pointsOf (log : List Event) (p : String) : Int :=
  ((log.filter (fun e => e.play == p)).map Event.points).sum

/-- `made_mask` restricted to a play and counted (lines 56, 58). -/
def madeOf (log : List Event) (p : String) : Nat :=
  (log.filter (fun e =>
    e.play == p && (e.result == "Made 2" || e.result == "Made 3"))).length

/-- `att_mask` restricted to a play and counted (lines 57, 59). -/
def shotAttemptsOf (log : List Event) (p : String) : Nat :=
  (log.filter (fun e =>
    e.play == p && (e.result == "Made 2" || e.result == "Made 3" ||
      e.result == "Missed 2" || e.result == "Missed 3"))).length

/-- `success_rate` (lines 61-64): `(made / atts) if atts else 0.0`. -/
def success_rate (log : List Event) (p : String) : ℚ :=
  if shotAttemptsOf log p ≠ 0 then
    (madeOf log p : ℚ) / (shotAttemptsOf log p : ℚ)
  else 0

/-- The group keys of `groupby("play")`: the distinct play values, sorted
ascending (pandas sorts group keys by default). -/
def group_keys (log : List Event) : List String :=
  ((log.map Event.play).dedup).insertionSort (· ≤ ·)

/-- `total_attempts = metrics["Attempts"].sum()` (line 53). -/
def total_attempts (log : List Event) : Nat :=
  ((group_keys log).map (attemptsOf log)).sum

/-- `Frequency` (line 54): attempts over total attempts, with the
denominator guarded to 1 when the total is 0. -/
def frequency (log : List Event) (p : String) : ℚ :=
  (attemptsOf log p : ℚ) /
    ((if total_attempts log ≠ 0 then total_attempts log else 1 : ℕ) : ℚ)

/-- The metrics row of one play, before the final sort (lines 44-66). -/
def metrics_row (log : List Event) (p : String) : MetricsRow :=
  { Play := p
    Attempts := attemptsOf log p
    Points := pointsOf log p
    PPP := (pointsOf log p : ℚ) / (attemptsOf log p : ℚ)
    Frequency := frequency log p
    SuccessRate := success_rate log p }

/-- The comparison used by
`sort_values(by=["PPP", "Attempts"], ascending=[False, False])` (line 69):
`a` may precede `b` when `a` has larger PPP, or equal PPP and at least as
many attempts. -/
def RowLe (a b : MetricsRow) : Prop :=
  b.PPP < a.PPP ∨ (a.PPP = b.PPP ∧ b.Attempts ≤ a.Attempts)

instance : DecidableRel RowLe := fun a b => by
  unfold RowLe; infer_instance

/-- `compute_metrics` (lines 40-70): empty input gives the empty table;
otherwise one row per distinct play, sorted (stably, as pandas does) by
PPP then Attempts, both descending. -/
def compute_metrics (log : List Event) : List MetricsRow :=
  if log = [] then []
  else ((group_keys log).map (metrics_row log)).insertionSort RowLe

/-- The whole per-session state initialised by `init_state` (lines 12-19). -/
structure Session where
  plays : List String
  log : List Event
  selected_play : Option String
  opponent : String
  game_date : String
  quarter : String
  new_play : String
deriving DecidableEq, Repr

/-- Python's `str.strip()`: drop whitespace from both ends. -/
def py_strip (s : String) : String :=
  ⟨((s.data.dropWhile Char.isWhitespace).reverse.dropWhile
      Char.isWhitespace).reverse⟩

/-- Python's `str.lower()`: lower-case every character. -/
def py_lower (s : String) : String :=
  ⟨s.data.map Char.toLower⟩

/-- `add_play` (lines 89-99).  Reads the pending name from `new_play`,
strips it, silently ignores an empty result, warns (second component
`true`) and ignores a case-insensitive duplicate, and otherwise appends
the stripped name and clears `new_play`. -/
def add_play (s : Session) : Session × Bool :=
  let raw := py_strip s.new_play
  if raw = "" then (s, false)
  else if py_lower raw ∈ s.plays.map py_lower then (s, true)
  else ({ s with plays := s.plays ++ [raw], new_play := "" }, false)

/-- The sidebar play listing (lines 104-108) shows `plays` in order. -/
def list_plays (s : Session) : List String :=
  s.plays

/-- The `Reset Game` button handler (lines 111-114): clears the log and
the selection, touches nothing else. -/
def reset_game (s : Session) : Session :=
  { s with log := [], selected_play := none }

/-! Helper lemmas about the metrics engine. -/

lemma metrics_row_Play (log : List Event) (p : String) :
    (metrics_row log p).Play = p := rfl

lemma mem_group_keys {log : List Event} {p : String} :
    p ∈ group_keys log ↔ ∃ e ∈ log, e.play = p := by
  simp [group_keys, List.mem_insertionSort, List.mem_dedup, List.mem_map]

lemma nodup_group_keys (log : List Event) : (group_keys log).Nodup :=
  ((List.perm_insertionSort _ _).nodup_iff).2 (List.nodup_dedup _)

lemma compute_metrics_eq (log : List Event) (h : log ≠ []) :
    compute_metrics log
      = ((group_keys log).map (metrics_row log)).insertionSort RowLe := by
  simp [compute_metrics, h]

lemma compute_metrics_perm {log : List Event} (h : log ≠ []) :
    List.Perm (compute_metrics log)
      ((group_keys log).map (metrics_row log)) := by
  rw [compute_metrics_eq log h]
  exact List.perm_insertionSort _ _

lemma eq_metrics_row_of_mem {log : List Event} {r : MetricsRow}
    (hr : r ∈ compute_metrics log) :
    r = metrics_row log r.Play ∧ r.Play ∈ group_keys log := by
  by_cases h : log = []
  · subst h; simp [compute_metrics] at hr
  · have := (compute_metrics_perm h).mem_iff.1 hr
    obtain ⟨p, hp, hpr⟩ := List.mem_map.1 this
    subst hpr
    exact ⟨rfl, hp⟩

lemma metrics_row_mem {log : List Event} {p : String} (h : log ≠ [])
    (hp : p ∈ group_keys log) :
    metrics_row log p ∈ compute_metrics log :=
  (compute_metrics_perm h).mem_iff.2 (List.mem_map_of_mem _ hp)

lemma attemptsOf_pos {log : List Event} {p : String}
    (hp : ∃ e ∈ log, e.play = p) : 0 < attemptsOf log p := by
  obtain ⟨e, he, hep⟩ := hp
  have hmem : e ∈ log.filter (fun e => e.play == p) :=
    List.mem_filter.2 ⟨he, by simp [hep]⟩
  exact List.length_pos.2 (List.ne_nil_of_mem hmem)

lemma attemptsOf_eq_count (log : List Event) (p : String) :
    attemptsOf log p = (log.map Event.play).count p := by
  rw [attemptsOf, List.count_eq_countP, List.countP_eq_length_filter,
    List.filter_map, List.length_map]
  rfl

lemma total_attempts_eq_length (log : List Event) :
    total_attempts log = log.length := by
  unfold total_attempts group_keys
  rw [((List.perm_insertionSort (· ≤ ·) _).map (attemptsOf log)).sum_eq]
  have hfun : attemptsOf log = fun p => (log.map Event.play).count p :=
    funext (attemptsOf_eq_count log)
  rw [hfun, List.sum_map_count_dedup_eq_length, List.length_map]

lemma total_attempts_pos {log : List Event} (h : log ≠ []) :
    0 < total_attempts log := by
  rw [total_attempts_eq_length]
  exact List.length_pos.2 h

lemma filter_compute_metrics_length {log : List Event} (p : String)
    (h : log ≠ []) :
    ((compute_metrics log).filter (fun r => r.Play == p)).length
      = (group_keys log).count p := by
  rw [((compute_metrics_perm h).filter (fun r => r.Play == p)).length_eq,
    List.filter_map, List.length_map, ← List.countP_eq_length_filter]
  rfl

lemma sum_map_div {α : Type _} (l : List α) (f : α → ℚ) (c : ℚ) :
    (l.map (fun x => f x / c)).sum = (l.map f).sum / c := by
  induction l with
  | nil => simp
  | cons a t ih => simp [ih, add_div]

instance : IsTotal MetricsRow RowLe := ⟨by
  intro a b
  unfold RowLe
  rcases lt_trichotomy a.PPP b.PPP with h | h | h
  · exact Or.inr (Or.inl h)
  · rcases le_total b.Attempts a.Attempts with ha | ha
    · exact Or.inl (Or.inr ⟨h, ha⟩)
    · exact Or.inr (Or.inr ⟨h.symm, ha⟩)
  · exact Or.inl (Or.inl h)⟩

instance : IsTrans MetricsRow RowLe := ⟨by
  intro a b c hab hbc
  unfold RowLe at hab hbc ⊢
  rcases hab with h1 | ⟨e1, a1⟩
  · rcases hbc with h2 | ⟨e2, a2⟩
    · exact Or.inl (h2.trans h1)
    · exact Or.inl (lt_of_eq_of_lt e2.symm h1)
  · rcases hbc with h2 | ⟨e2, a2⟩
    · exact Or.inl (lt_of_lt_of_eq h2 e1.symm)
    · exact Or.inr ⟨e1.trans e2, a2.trans a1⟩⟩

/-! Concrete fixtures used by the witnesses. -/

def ctx_ex : Context := ⟨"Opp", "2026-10-12", "1"⟩

/-- A small log: play `PnR` tagged `Made 2`, `Made 2`, `Missed 3`, and
play `Iso` tagged only `Foul`. -/
def log_ex : List Event :=
  add_log
    (add_log
      (add_log
        (add_log [] ctx_ex "t1" "PnR" "Made 2")
        ctx_ex "t2" "PnR" "Made 2")
      ctx_ex "t3" "PnR" "Missed 3")
    ctx_ex "t4" "Iso" "Foul"

/-! Theorems for the specification claims. -/

/-- C1: for every non-empty event log and every play name occurring in it,
`compute_metrics` emits exactly one row for that play, whose `Attempts` is
the number of events tagged with the play (every result counted, fouls
included), whose `Points` is the sum of their `points` fields, whose `PPP`
is `Points / Attempts`, and whose `Attempts` is at least 1. -/
theorem c1_per_play_row (log : List Event) (p : String) (hne : log ≠ [])
    (hp : ∃ e ∈ log, e.play = p) :
    ((compute_metrics log).filter (fun r => r.Play == p)).length = 1
    ∧ ∀ r ∈ compute_metrics log, r.Play = p →
        r.Attempts = (log.filter (fun e => e.play == p)).length
        ∧ r.Points = ((log.filter (fun e => e.play == p)).map Event.points).sum
        ∧ r.PPP = (r.Points : ℚ) / (r.Attempts : ℚ)
        ∧ 1 ≤ r.Attempts := by
  constructor
  · rw [filter_compute_metrics_length p hne]
    exact List.count_eq_one_of_mem (nodup_group_keys log) (mem_group_keys.2 hp)
  · intro r hr hrp
    obtain ⟨hre, -⟩ := eq_metrics_row_of_mem hr
    have hr2 : r = metrics_row log p := by rw [hre, hrp]
    subst hr2
    exact ⟨rfl, rfl, rfl, attemptsOf_pos hp⟩

/-- C1 witness: instantiated on `log_ex` and play `PnR`. -/
theorem c1_witness :
    ((compute_metrics log_ex).filter (fun r => r.Play == "PnR")).length = 1
    ∧ ∀ r ∈ compute_metrics log_ex, r.Play = "PnR" →
        r.Attempts = (log_ex.filter (fun e => e.play == "PnR")).length
        ∧ r.Points
            = ((log_ex.filter (fun e => e.play == "PnR")).map Event.points).sum
        ∧ r.PPP = (r.Points : ℚ) / (r.Attempts : ℚ)
        ∧ 1 ≤ r.Attempts :=
  c1_per_play_row log_ex "PnR" (by decide) (by decide)

/-- C2: for every log and play occurring in it, the play's row has
`Success Rate` equal to made shots over shot attempts, and exactly 0 when
the play has no shot attempts (for example a Foul-only play). -/
theorem c2_success_rate (log : List Event) (p : String)
    (hp : ∃ e ∈ log, e.play = p) :
    (∃ r ∈ compute_metrics log, r.Play = p)
    ∧ ∀ r ∈ compute_metrics log, r.Play = p →
        (shotAttemptsOf log p ≠ 0 →
          r.SuccessRate = (madeOf log p : ℚ) / (shotAttemptsOf log p : ℚ))
        ∧ (shotAttemptsOf log p = 0 → r.SuccessRate = 0) := by
  have hne : log ≠ [] := by
    rintro rfl
    obtain ⟨e, he, -⟩ := hp
    exact absurd he (List.not_mem_nil e)
  constructor
  · exact ⟨metrics_row log p, metrics_row_mem hne (mem_group_keys.2 hp), rfl⟩
  · intro r hr hrp
    obtain ⟨hre, -⟩ := eq_metrics_row_of_mem hr
    have hr2 : r = metrics_row log p := by rw [hre, hrp]
    subst hr2
    constructor
    · intro hnz
      simp [metrics_row, success_rate, hnz]
    · intro hz
      simp [metrics_row, success_rate, hz]

/-- C2 witness: play `Iso` of `log_ex` is tagged only with `Foul`, so its
row exists and its shot-attempt denominator is 0. -/
theorem c2_witness :
    ((∃ r ∈ compute_metrics log_ex, r.Play = "Iso")
    ∧ ∀ r ∈ compute_metrics log_ex, r.Play = "Iso" →
        (shotAttemptsOf log_ex "Iso" ≠ 0 →
          r.SuccessRate
            = (madeOf log_ex "Iso" : ℚ) / (shotAttemptsOf log_ex "Iso" : ℚ))
        ∧ (shotAttemptsOf log_ex "Iso" = 0 → r.SuccessRate = 0))
    ∧ shotAttemptsOf log_ex "Iso" = 0 :=
  ⟨c2_success_rate log_ex "Iso" (by decide), by decide⟩

/-- C3: the metrics rows are sorted descending by PPP, rows of equal PPP
descending by Attempts; rows tying on both may appear in either order. -/
theorem c3_sorted (log : List Event) :
    (compute_metrics log).Pairwise
      (fun a b => b.PPP < a.PPP ∨ (a.PPP = b.PPP ∧ b.Attempts ≤ a.Attempts)) := by
  by_cases h : log = []
  · simp [compute_metrics, h]
  · rw [compute_metrics_eq log h]
    exact (List.sorted_insertionSort RowLe _).imp (fun hab => hab)

/-- C4: in a non-empty log, every row's Frequency is its Attempts over the
total Attempts, and the Frequencies sum to exactly 1. -/
theorem c4_frequency (log : List Event) (hne : log ≠ []) :
    (∀ r ∈ compute_metrics log,
        r.Frequency = (r.Attempts : ℚ) / (total_attempts log : ℚ))
    ∧ ((compute_metrics log).map MetricsRow.Frequency).sum = 1 := by
  have hpos := total_attempts_pos hne
  have h0 : (total_attempts log : ℚ) ≠ 0 := by
    exact_mod_cast hpos.ne'
  constructor
  · intro r hr
    obtain ⟨hre, -⟩ := eq_metrics_row_of_mem hr
    rw [hre]
    simp [metrics_row, frequency, hpos.ne']
  · rw [((compute_metrics_perm hne).map MetricsRow.Frequency).sum_eq,
      List.map_map]
    have hfun : (MetricsRow.Frequency ∘ metrics_row log)
        = fun p => (attemptsOf log p : ℚ) / (total_attempts log : ℚ) := by
      funext p
      simp [metrics_row, frequency, hpos.ne']
    rw [hfun, sum_map_div]
    have hcast : ((group_keys log).map
        (fun p => (attemptsOf log p : ℚ))).sum = (total_attempts log : ℚ) := by
      rw [total_attempts, Nat.cast_list_sum, List.map_map]
      rfl
    rw [hcast, div_self h0]

/-- C4 witness: instantiated on `log_ex`. -/
theorem c4_witness :
    (∀ r ∈ compute_metrics log_ex,
        r.Frequency = (r.Attempts : ℚ) / (total_attempts log_ex : ℚ))
    ∧ ((compute_metrics log_ex).map MetricsRow.Frequency).sum = 1 :=
  c4_frequency log_ex (by decide)

/-- C5: `add_log` appends exactly one event whose `points` field follows
the fixed result-to-points mapping, with unknown results mapped to 0
rather than an error. -/
theorem c5_tag_append (log : List Event) (ctx : Context)
    (ts play result : String) :
    add_log log ctx ts play result
      = log ++ [{ timestamp := ts, opponent := ctx.opponent,
                  game_date := ctx.game_date, quarter := ctx.quarter,
                  play := play, result := result,
                  points := points_from_result result }]
    ∧ points_from_result "Made 2" = 2
    ∧ points_from_result "Made 3" = 3
    ∧ points_from_result "Missed 2" = 0
    ∧ points_from_result "Missed 3" = 0
    ∧ points_from_result "Foul" = 0
    ∧ (result ∉ ["Made 2", "Made 3", "Missed 2", "Missed 3", "Foul"] →
        points_from_result result = 0) := by
  refine ⟨rfl, rfl, rfl, rfl, rfl, rfl, ?_⟩
  intro hres
  simp only [List.mem_cons, List.not_mem_nil, or_false, not_or] at hres
  obtain ⟨h1, h2, h3, h4, h5⟩ := hres
  simp [points_from_result, h1, h2, h3, h4, h5]

/-- C5 witness: a result string outside the enumeration gets 0 points. -/
theorem c5_witness :
    add_log [] ctx_ex "t0" "PnR" "Turnover"
      = [] ++ [{ timestamp := "t0", opponent := ctx_ex.opponent,
                 game_date := ctx_ex.game_date, quarter := ctx_ex.quarter,
                 play := "PnR", result := "Turnover",
                 points := points_from_result "Turnover" }]
    ∧ points_from_result "Made 2" = 2
    ∧ points_from_result "Made 3" = 3
    ∧ points_from_result "Missed 2" = 0
    ∧ points_from_result "Missed 3" = 0
    ∧ points_from_result "Foul" = 0
    ∧ points_from_result "Turnover" = 0 := by
  have h := c5_tag_append [] ctx_ex "t0" "PnR" "Turnover"
  exact ⟨h.1, h.2.1, h.2.2.1, h.2.2.2.1, h.2.2.2.2.1, h.2.2.2.2.2.1,
    h.2.2.2.2.2.2 (by decide)⟩

/-- A session whose pending play name is whitespace only. -/
def session_blank : Session :=
  { plays := ["Pick and Roll"], log := [], selected_play := none,
    opponent := "", game_date := "", quarter := "", new_play := "   " }

/-- C6 counterexample: a whitespace-only name is rejected as a no-op, but
no warning is reported to the caller — the rejection is entirely silent,
contradicting the claim that both rejection cases report a warning. -/
theorem c6_counterexample :
    py_strip session_blank.new_play = ""
    ∧ (add_play session_blank).1 = session_blank
    ∧ ¬ ((add_play session_blank).2 = true) := by decide

/-- C6 (amended): `add_play` strips whitespace; an empty stripped name is
a silent no-op (no warning); a case-insensitive duplicate is a no-op that
reports a non-fatal warning; otherwise the stripped name is appended to
the end of the registry. -/
theorem c6_add_play (s : Session) :
    (py_strip s.new_play = "" → add_play s = (s, false))
    ∧ (py_strip s.new_play ≠ "" →
        py_lower (py_strip s.new_play) ∈ s.plays.map py_lower →
        (add_play s).1.plays = s.plays ∧ (add_play s).2 = true)
    ∧ (py_strip s.new_play ≠ "" →
        py_lower (py_strip s.new_play) ∉ s.plays.map py_lower →
        (add_play s).1.plays = s.plays ++ [py_strip s.new_play]
          ∧ (add_play s).2 = false) := by
  refine ⟨?_, ?_, ?_⟩
  · intro h
    simp [add_play, h]
  · intro h1 h2
    simp [add_play, h1, h2]
  · intro h1 h2
    simp [add_play, h1, h2]

/-- A session with a fresh pending play name. -/
def session_fresh : Session :=
  { plays := ["A"], log := [], selected_play := none,
    opponent := "", game_date := "", quarter := "", new_play := " Horns " }

/-- C6 witness: a fresh non-empty name is appended after stripping. -/
theorem c6_witness :
    (add_play session_fresh).1.plays
        = session_fresh.plays ++ [py_strip session_fresh.new_play]
    ∧ (add_play session_fresh).2 = false :=
  (c6_add_play session_fresh).2.2 (by decide) (by decide)

/-- C7: `compute_metrics` of the empty log is the zero-row table with the
fixed column set, in order, rather than an error. -/
theorem c7_empty_log :
    compute_metrics [] = ([] : List MetricsRow)
    ∧ metrics_columns
        = ["Play", "Attempts", "Points", "PPP", "Frequency", "Success Rate"] :=
  ⟨rfl, rfl⟩

/-- C8: the reset handler empties the log (so metrics are zero rows) and
leaves the play registry exactly as it was. -/
theorem c8_reset (s : Session) :
    (reset_game s).log = []
    ∧ (reset_game s).plays = s.plays
    ∧ compute_metrics (reset_game s).log = []
    ∧ list_plays (reset_game s) = list_plays s :=
  ⟨rfl, rfl, rfl, rfl⟩

/-- C9: `add_log` never validates its play argument: for every play
string, registry membership notwithstanding, it appends one event carrying
that exact string and `compute_metrics` then emits a row keyed by it. -/
theorem c9_no_validation (log : List Event) (ctx : Context)
    (ts play result : String) :
    add_log log ctx ts play result
      = log ++ [{ timestamp := ts, opponent := ctx.opponent,
                  game_date := ctx.game_date, quarter := ctx.quarter,
                  play := play, result := result,
                  points := points_from_result result }]
    ∧ (add_log log ctx ts play result).length = log.length + 1
    ∧ ∃ r ∈ compute_metrics (add_log log ctx ts play result),
        r.Play = play := by
  have hmem : ∃ e ∈ add_log log ctx ts play result, e.play = play :=
    ⟨_, List.mem_append_right _ (List.mem_singleton.2 rfl), rfl⟩
  have hne : add_log log ctx ts play result ≠ [] := by
    simp [add_log]
  refine ⟨rfl, by simp [add_log], ?_⟩
  exact ⟨metrics_row _ play, metrics_row_mem hne (mem_group_keys.2 hmem), rfl⟩

/-- The fields of an event that `compute_metrics` can depend on. -/
def event_core (e : Event) : String × String × Int :=
  (e.play, e.result, e.points)

lemma attemptsOf_core (l : List Event) (p : String) :
    attemptsOf l p
      = ((l.map event_core).filter (fun t => t.1 == p)).length := by
  unfold attemptsOf
  rw [List.filter_map, List.length_map]
  rfl

lemma pointsOf_core (l : List Event) (p : String) :
    pointsOf l p
      = (((l.map event_core).filter (fun t => t.1 == p)).map
          (fun t => t.2.2)).sum := by
  unfold pointsOf
  rw [List.filter_map, List.map_map]
  rfl

lemma madeOf_core (l : List Event) (p : String) :
    madeOf l p
      = ((l.map event_core).filter (fun t =>
          t.1 == p && (t.2.1 == "Made 2" || t.2.1 == "Made 3"))).length := by
  unfold madeOf
  rw [List.filter_map, List.length_map]
  rfl

lemma shotAttemptsOf_core (l : List Event) (p : String) :
    shotAttemptsOf l p
      = ((l.map event_core).filter (fun t =>
          t.1 == p && (t.2.1 == "Made 2" || t.2.1 == "Made 3" ||
            t.2.1 == "Missed 2" || t.2.1 == "Missed 3"))).length := by
  unfold shotAttemptsOf
  rw [List.filter_map, List.length_map]
  rfl

lemma map_play_core (l : List Event) :
    l.map Event.play = (l.map event_core).map (fun t => t.1) := by
  rw [List.map_map]
  rfl

/-- C10: `compute_metrics` is a pure function of the play, result and
points fields of the events, in order: two logs agreeing on those fields
(in particular, two equal logs, or logs differing only in timestamps or
game context) yield the same metrics table. -/
theorem c10_deterministic (l1 l2 : List Event)
    (h : l1.map event_core = l2.map event_core) :
    compute_metrics l1 = compute_metrics l2 := by
  have hplay : l1.map Event.play = l2.map Event.play := by
    rw [map_play_core, map_play_core, h]
  have hkeys : group_keys l1 = group_keys l2 := by
    unfold group_keys
    rw [hplay]
  have hatt : attemptsOf l1 = attemptsOf l2 :=
    funext fun p => by rw [attemptsOf_core, attemptsOf_core, h]
  have hpts : pointsOf l1 = pointsOf l2 :=
    funext fun p => by rw [pointsOf_core, pointsOf_core, h]
  have hmade : madeOf l1 = madeOf l2 :=
    funext fun p => by rw [madeOf_core, madeOf_core, h]
  have hshot : shotAttemptsOf l1 = shotAttemptsOf l2 :=
    funext fun p => by rw [shotAttemptsOf_core, shotAttemptsOf_core, h]
  have htot : total_attempts l1 = total_attempts l2 := by
    unfold total_attempts
    rw [hkeys, hatt]
  have hrow : metrics_row l1 = metrics_row l2 := by
    funext p
    unfold metrics_row frequency success_rate
    rw [hatt, hpts, hmade, hshot, htot]
  have hnil : l1 = [] ↔ l2 = [] := by
    constructor <;> intro hh
    · have : l2.map event_core = [] := by rw [← h, hh]; rfl
      exact List.map_eq_nil_iff.1 this
    · have : l1.map event_core = [] := by rw [h, hh]; rfl
      exact List.map_eq_nil_iff.1 this
  by_cases h1 : l1 = []
  · have h2 : l2 = [] := hnil.1 h1
    simp [compute_metrics, h1, h2]
  · have h2 : l2 ≠ [] := fun hh => h1 (hnil.2 hh)
    rw [compute_metrics_eq l1 h1, compute_metrics_eq l2 h2, hkeys, hrow]

/-- C10 witness: two one-event logs differing only in timestamp and
opponent give the same metrics table. -/
theorem c10_witness :
    compute_metrics [⟨"t1", "OppA", "d", "1", "PnR", "Made 2", 2⟩]
      = compute_metrics [⟨"t2", "OppB", "d", "2", "PnR", "Made 2", 2⟩] :=
  c10_deterministic _ _ rfl

end BasketballTagger
